import Mathlib

/-!
Verification of the graphql terraform provider's reconciliation core.

This file embeds, in Lean, the parts of the Go source that the verified
properties are about:

  * `graphql/keys.go` — `computeMutationVariableKeys`, `getTopLevelKeys`,
    `hash` / `hashCodeString` (CRC32-based identity hashing);
  * `graphql/query_executor.go` — the retry loop of
    `executeGraphQLRequestFramework`, its error classifiers
    `isRateLimitError` / `isBusinessLogicError`, and the pagination loop of
    `executePaginatedQueryFramework` with `extractPaginatedData`;
  * `internal/utils/json_utils.go` — `StateComparison.ValuesEqual` and its
    helpers, and `FlattenRecursive` / `GenerateKeysFromResponse`;
  * `graphql/resource_graphql_mutation.go` — `findChangedFields`,
    `markResourceAsDeleted`, the post-request portion of `readResource`,
    and the identity-resolution portion of `executeDeleteHook`.

Modelling conventions:
  * JSON documents are a tagged union `Json`; JSON numbers are modelled as
    arbitrary-precision integers (the verified properties never depend on
    float formatting).
  * Go `map[string]T` values are association lists; Go's randomized map
    iteration order becomes list order, and the properties proved below are
    insensitive to that order.
  * Machine integers are `Nat` / `Int` with explicit wrapping where Go's two's
    complement arithmetic matters (`int64Wrap`); Go's `int` is 64-bit.
  * HTTP traffic is abstracted as an oracle giving the outcome of the i-th
    request attempt; everything after the transport boundary is embedded.
  * Strings are compared by code point, which coincides with Go's byte-wise
    comparison of UTF-8 strings; `strings.ToLower` is modelled on ASCII.
-/

namespace GraphqlProvider

/-- A JSON value: the dynamic `interface{}` documents the Go code traverses.
Numbers are modelled as integers (see the header comment). -/
inductive Json where
  | null
  | bool (b : Bool)
  | num (n : Int)
  | str (s : String)
  | arr (elems : List Json)
  | obj (fields : List (String × Json))

/-- First binding of a key in an object's field list (Go map lookup). -/
def lookupField : List (String × Json) → String → Option Json
  | [], _ => none
  | (k, v) :: rest, key => if k = key then some v else lookupField rest key

/-- Decimal digits of a natural number, most significant first; `fuel`
bounds the recursion (call with `fuel ≥ n`). -/
def natDigitsAux : Nat → Nat → List Char
  | _, 0 => []
  | 0, _ => []
  | n, fuel + 1 =>
    natDigitsAux (n / 10) fuel ++ [Char.ofNat (48 + n % 10)]

/-- Go `strconv` style decimal rendering of a natural number. -/
def natToString (n : Nat) : String :=
  if n = 0 then "0" else String.mk (natDigitsAux n n)

/-- Go `strconv` style decimal rendering of an integer (`fmt` `%d`). -/
def intToString (i : Int) : String :=
  if i < 0 then "-" ++ natToString i.natAbs else natToString i.natAbs

mutual

/-- Raw JSON text of a value, in document order with no whitespace: the model
of `gjson`'s `Result.Raw` and of re-serialized response bytes. -/
def rawJson : Json → String
  | .null => "null"
  | .bool true => "true"
  | .bool false => "false"
  | .num n => intToString n
  | .str s => "\"" ++ s ++ "\""
  | .arr es => "[" ++ rawJsonList es ++ "]"
  | .obj fs => "\x7b" ++ rawJsonFields fs ++ "\x7d"

/-- Comma-separated raw text of array elements. -/
def rawJsonList : List Json → String
  | [] => ""
  | [e] => rawJson e
  | e :: es => rawJson e ++ "," ++ rawJsonList es

/-- Comma-separated raw text of object members. -/
def rawJsonFields : List (String × Json) → String
  | [] => ""
  | [(k, v)] => "\"" ++ k ++ "\":" ++ rawJson v
  | (k, v) :: fs => "\"" ++ k ++ "\":" ++ rawJson v ++ "," ++ rawJsonFields fs

end

/-- Split a list of characters at every occurrence of `sep`. -/
def splitCharsOn (sep : Char) : List Char → List (List Char)
  | [] => [[]]
  | c :: cs =>
    let rest := splitCharsOn sep cs
    if c = sep then [] :: rest
    else match rest with
      | [] => [[c]]
      | r :: rs => (c :: r) :: rs

/-- Dot-path segmentation: the model of `gjson`'s plain (escape-free,
wildcard-free) path parsing, as exercised by this provider. -/
def parsePath (p : String) : List String :=
  (splitCharsOn '.' p.data).map String.mk

/-- Whether a path segment is a non-empty run of decimal digits (a `gjson`
array index). -/
def isDigits (s : String) : Bool :=
  !s.data.isEmpty && s.data.all (fun c => 48 ≤ c.toNat && c.toNat ≤ 57)

/-- Numeric value of a digit segment. -/
def digitsToNat (s : String) : Nat :=
  s.data.foldl (fun acc c => acc * 10 + (c.toNat - 48)) 0

/-- Resolve a segmented path against a JSON value: object segments match
field names, digit segments index arrays. `none` models
`gjson.Result.Exists() == false`. -/
def jsonGetSegs : Json → List String → Option Json
  | j, [] => some j
  | .obj fs, s :: rest =>
    match lookupField fs s with
    | some v => jsonGetSegs v rest
    | none => none
  | .arr es, s :: rest =>
    if isDigits s then
      match es.get? (digitsToNat s) with
      | some v => jsonGetSegs v rest
      | none => none
    else none
  | _, _ :: _ => none

/-- The model of `gjson.Get(responseJSON, path)`, on the parsed document. -/
def gjsonGet (j : Json) (path : String) : Option Json :=
  jsonGetSegs j (parsePath path)

/-- The model of `gjson`'s `Result.String()`: `Null` prints empty, booleans
print `true`/`false`, numbers print their decimal text, strings print
themselves, and arrays/objects print their raw JSON. -/
def resultString : Json → String
  | .null => ""
  | .bool true => "true"
  | .bool false => "false"
  | .num n => intToString n
  | .str s => s
  | .arr es => rawJson (.arr es)
  | .obj fs => rawJson (.obj fs)

/-- `getTopLevelKeys` (keys.go:67): top-level keys of the response for the
diagnostic message. `json.Unmarshal` into a map leaves it empty on a JSON
`null`, and errors on any other non-object, yielding the sentinel key list. -/
def getTopLevelKeys : Json → List String
  | .obj fs => fs.map Prod.fst
  | .null => []
  | _ => ["error_parsing_json"]

/-- Go `fmt` `%v` rendering of a `[]string`. -/
def goStringSlice (keys : List String) : String :=
  "[" ++ String.intercalate " " keys ++ "]"

/-- The errors `computeMutationVariableKeys` can return. -/
inductive KeysError where
  | pathNotString (key : String)
  | pathNotFound (path : String) (topKeys : List String)

/-- The `fmt.Errorf` message text of a `KeysError` (keys.go:27 and keys.go:50). -/
def KeysError.message : KeysError → String
  | .pathNotString k => "path for key \x27" ++ k ++ "\x27 is not a string"
  | .pathNotFound p keys =>
    "the path \x27" ++ p ++ "\x27 does not exist in the response (tried: \x27data." ++
      p ++ "\x27, \x27data.paginatedData.0." ++ p ++ "\x27, \x27" ++ p ++
      "\x27, \x27paginatedData.0." ++ p ++ "\x27). Available top-level keys: " ++
      goStringSlice keys

/-- The four-location fallback of keys.go:30-54: `data.<path>`, then
`data.paginatedData.0.<path>`, then `<path>`, then `paginatedData.0.<path>`,
first existing location wins. -/
def resolveMutationKey (resp : Json) (path : String) : Option Json :=
  match gjsonGet resp ("data." ++ path) with
  | some r => some r
  | none =>
    match gjsonGet resp ("data.paginatedData.0." ++ path) with
    | some r => some r
    | none =>
      match gjsonGet resp path with
      | some r => some r
      | none => gjsonGet resp ("paginatedData.0." ++ path)

/-- `computeMutationVariableKeys` (keys.go:15): resolve every `(key, path)`
pair against the response, coercing each resolved value with
`Result.String()`; the first key whose path value is not a string, or whose
path resolves at none of the four locations, fails the whole call. -/
def computeMutationVariableKeys (keyMaps : List (String × Json)) (resp : Json) :
    Except KeysError (List (String × String)) :=
  match keyMaps with
  | [] => .ok []
  | (k, v) :: rest =>
    match v with
    | .str path =>
      match resolveMutationKey resp path with
      | some r =>
        match computeMutationVariableKeys rest resp with
        | .ok m => .ok ((k, resultString r) :: m)
        | .error e => .error e
      | none => .error (.pathNotFound path (getTopLevelKeys resp))
    | _ => .error (.pathNotString k)

/-- One CRC32 (IEEE, reflected polynomial 0xEDB88320) bit step. -/
def crc32Step (c : Nat) : Nat :=
  if c % 2 = 1 then (c / 2) ^^^ 0xEDB88320 else c / 2

/-- Iterate the bit step `k` times. -/
def crc32Steps : Nat → Nat → Nat
  | 0, c => c
  | k + 1, c => crc32Steps k (crc32Step c)

/-- Fold one input byte into the running CRC. -/
def crc32Byte (c b : Nat) : Nat :=
  crc32Steps 8 (c ^^^ (b % 256))

/-- `crc32.ChecksumIEEE` over a byte sequence. -/
def crc32 (bs : List Nat) : Nat :=
  (bs.foldl crc32Byte 0xFFFFFFFF) ^^^ 0xFFFFFFFF

/-- Two's complement wrap of an integer into the 64-bit signed range: the
model of Go's `int` arithmetic where overflow matters. -/
def int64Wrap (x : Int) : Int :=
  (x + 2 ^ 63) % 2 ^ 64 - 2 ^ 63

/-- `hashCodeString` (keys.go:98): CRC32 of the input, sign-folded — a
negative value (impossible for a 64-bit `int` holding a `uint32`) would be
negated with wrapping, and a negation that stays negative (the minimum
integer) maps to zero. -/
def hashCodeString (s : List Nat) : Int :=
  let v : Int := Int.ofNat (crc32 s)
  if 0 ≤ v then v
  else if 0 ≤ int64Wrap (-v) then int64Wrap (-v)
  else 0

/-- The sign-folding by itself, applied to an arbitrary 64-bit integer: the
shape of keys.go:100-107 abstracted over its input. -/
def signFold (v : Int) : Int :=
  if 0 ≤ v then v
  else if 0 ≤ int64Wrap (-v) then int64Wrap (-v)
  else 0

/-- `hash` (keys.go:90): hash the raw bytes directly. -/
def hashBytes (v : List Nat) : Int :=
  hashCodeString v

/-- Substring search on character lists (the scaffold of `strings.Contains`). -/
def containsSub (l sub : List Char) : Bool :=
  if sub.isPrefixOf l then true
  else match l with
    | [] => false
    | _ :: t => containsSub t sub

/-- The model of Go's `strings.Contains s sub`. -/
def strContains (s sub : String) : Bool :=
  containsSub s.data sub.data

/-- ASCII model of `strings.ToLower`. -/
def toLowerStr (s : String) : String :=
  String.mk (s.data.map Char.toLower)

/-- Bytes of a string (code points; coincides with UTF-8 bytes on ASCII). -/
def stringBytes (s : String) : List Nat :=
  s.data.map Char.toNat

/-- One Terraform diagnostic: severity, summary and detail text. -/
structure Diag where
  isError : Bool
  summary : String
  detail : String

/-- `diag.Diagnostics.HasError()`. -/
def hasError (ds : List Diag) : Bool :=
  ds.any (·.isError)

/-- `isRateLimitError` (query_executor.go:297): any diagnostic whose detail
contains `HTTP 429` or `Rate limit`. -/
def isRateLimitError (ds : List Diag) : Bool :=
  ds.any (fun d => strContains d.detail "HTTP 429" || strContains d.detail "Rate limit")

/-- `isBusinessLogicError` (query_executor.go:307): any diagnostic whose
detail contains one of the four fixed business-logic substrings. -/
def isBusinessLogicError (ds : List Diag) : Bool :=
  ds.any (fun d =>
    strContains d.detail "Can\x27t enable multiple versions" ||
    strContains d.detail "already enabled" ||
    strContains d.detail "already exists" ||
    strContains d.detail "conflict")

/-- `maxRetries` in `executeGraphQLRequestFramework` (query_executor.go:110). -/
def maxRetries : Nat := 5

/-- The retry loop of `executeGraphQLRequestFramework`
(query_executor.go:136-184), abstracted over an oracle giving the
diagnostics of the i-th call to `executeSingleGraphQLRequest`. Returns the
number of requests issued and the diagnostics of the attempt that was
returned (`none` only for the unreachable fall-through after the loop).
`fuel` is the number of loop iterations remaining, `maxRetries + 1 - attempt`
at every call. Rate-limiter waiting and backoff sleeps shape timing only and
are not modelled. -/
def execRequestLoop (outcomes : Nat → List Diag) : Nat → Nat → Nat × Option (List Diag)
  | _, 0 => (0, none)
  | attempt, fuel + 1 =>
    let ds := outcomes attempt
    if hasError ds = false then (1, some ds)
    else if isRateLimitError ds = true ∧ attempt < maxRetries then
      let r := execRequestLoop outcomes (attempt + 1) fuel
      (r.1 + 1, r.2)
    else if isBusinessLogicError ds = true then (1, some ds)
    else (1, some ds)

/-- `executeGraphQLRequestFramework`: run the retry loop from attempt 0. -/
def executeGraphQLRequestFramework (outcomes : Nat → List Diag) : Nat × Option (List Diag) :=
  execRequestLoop outcomes 0 (maxRetries + 1)

/-- A GraphQL response as unmarshaled into `GqlQueryResponse` (gql_query.go):
the `data` object (`none` models a nil map) and the error messages. -/
structure GqlResp where
  data? : Option (List (String × Json))
  errors : List String

/-- The scan inside `extractPaginatedData` (query_executor.go:388-407) over
the response's top-level values, with the whole map kept for the
no-pagination-structure fallback. -/
def extractPaginatedDataScan (whole : List (String × Json)) :
    List (String × Json) → Option (List (String × Json)) × Bool × String
  | [] => (some whole, false, "")
  | (_, v) :: rest =>
    match v with
    | .obj pageInfo =>
      if (lookupField pageInfo "edges").isSome then
        match lookupField pageInfo "pageInfo" with
        | some (.obj pid) =>
          let hasNextPage := match lookupField pid "hasNextPage" with
            | some (.bool b) => b
            | _ => false
          let endCursor := match lookupField pid "endCursor" with
            | some (.str s) => s
            | _ => ""
          (some pageInfo, hasNextPage, endCursor)
        | _ => extractPaginatedDataScan whole rest
      else extractPaginatedDataScan whole rest
    | _ => extractPaginatedDataScan whole rest

/-- `extractPaginatedData` (query_executor.go:382): locate a paginated
result (a value with an `edges` key and a well-formed `pageInfo`), defaulting
`hasNextPage` to false and `endCursor` to empty. -/
def extractPaginatedData : Option (List (String × Json)) →
    Option (List (String × Json)) × Bool × String
  | none => (none, false, "")
  | some fields => extractPaginatedDataScan fields fields

/-- Outcome of one iteration's request inside the pagination loop. -/
inductive PageOutcome where
  | failed (ds : List Diag)
  | ok (resp : GqlResp)

/-- The loop of `executePaginatedQueryFramework` (query_executor.go:332-361),
abstracted over an oracle giving the outcome of the i-th request. Returns
the accumulated page data, the number of requests issued, and whether the
loop ended in success; `none` if `fuel` iterations did not suffice. -/
def paginationLoop (responses : Nat → PageOutcome) :
    Nat → Nat → Option (List (List (String × Json)) × Nat × Bool)
  | _, 0 => none
  | i, fuel + 1 =>
    match responses i with
    | .failed _ => some ([], i + 1, false)
    | .ok resp =>
      if resp.errors ≠ [] then some ([], i + 1, false)
      else
        let (pageData, hasNextPage, nextCursor) := extractPaginatedData resp.data?
        let acc := match pageData with
          | some d => [d]
          | none => []
        if hasNextPage = false then some (acc, i + 1, true)
        else if nextCursor = "" then some (acc, i + 1, true)
        else
          match paginationLoop responses (i + 1) fuel with
          | some (rest, n, okEnd) => some (acc ++ rest, n, okEnd)
          | none => none

/-- Whether the pagination loop stops (makes no further request) right after
the response at index `i`: a failed request, a GraphQL error, a page
reporting `hasNextPage = false`, or an empty `endCursor`. -/
def pageStops (responses : Nat → PageOutcome) (i : Nat) : Bool :=
  match responses i with
  | .failed _ => true
  | .ok resp =>
    if resp.errors ≠ [] then true
    else
      let (_, hasNextPage, nextCursor) := extractPaginatedData resp.data?
      hasNextPage = false || nextCursor = ""

/-- The sentinel the comparator treats as matching anything
(json_utils state comparison, `ValuesEqual`). -/
def secretSentinel : String := "__secret_content__"

/-- `isEffectivelyNull` (StateComparison): nil, an empty or all-null object,
or an empty or all-null array. -/
def isEffectivelyNull : Json → Bool
  | .null => true
  | .obj fs => fs.all (fun kv => match kv.2 with | .null => true | _ => false)
  | .arr es => es.all (fun e => match e with | .null => true | _ => false)
  | _ => false

/-- ASCII model of the character class of `strings.TrimSpace`. -/
def isGoSpace (c : Char) : Bool :=
  c = ' ' || c = '\t' || c = '\n' || c = Char.ofNat 11 || c = Char.ofNat 12 || c = '\r'

/-- ASCII model of `strings.TrimSpace`. -/
def goTrimSpace (s : String) : String :=
  String.mk (((s.data.dropWhile isGoSpace).reverse.dropWhile isGoSpace).reverse)

/-- Whether every element of a JSON array is a string
(`normalizeValue`'s all-strings check). -/
def allStrings : List Json → Bool
  | [] => true
  | .str _ :: rest => allStrings rest
  | _ => false

/-- Insert a string into a sorted list (ascending, Go `sort.Strings` order:
byte order of UTF-8, which is code point order). -/
def insertSorted (s : String) : List String → List String
  | [] => [s]
  | t :: rest => if s < t ∨ s = t then s :: t :: rest else t :: insertSorted s rest

/-- Sort a list of strings ascending. -/
def sortStrings (l : List String) : List String :=
  l.foldr insertSorted []

/-- The strings of an all-string JSON array. -/
def theStrings : List Json → List String
  | [] => []
  | .str s :: rest => s :: theStrings rest
  | _ :: rest => theStrings rest

mutual

/-- `normalizeValue` (StateComparison): trim strings, recurse into objects,
sort all-string arrays, recurse into other arrays. -/
def normalizeValue : Json → Json
  | .null => .null
  | .bool b => .bool b
  | .num n => .num n
  | .str s => .str (goTrimSpace s)
  | .obj fs => .obj (normalizeFields fs)
  | .arr es =>
    if allStrings es then .arr ((sortStrings (theStrings es)).map Json.str)
    else .arr (normalizeList es)

/-- Normalize the members of an object. -/
def normalizeFields : List (String × Json) → List (String × Json)
  | [] => []
  | (k, v) :: rest => (k, normalizeValue v) :: normalizeFields rest

/-- Normalize the elements of an array. -/
def normalizeList : List Json → List Json
  | [] => []
  | e :: rest => normalizeValue e :: normalizeList rest

end

/-- Insert an object member into a key-sorted member list. -/
def insertFieldSorted (kv : String × Json) : List (String × Json) → List (String × Json)
  | [] => [kv]
  | hd :: tl => if kv.1 < hd.1 ∨ kv.1 = hd.1 then kv :: hd :: tl else hd :: insertFieldSorted kv tl

/-- Sort object members by key ascending (Go `encoding/json` marshals maps
with sorted keys). -/
def sortFields (fs : List (String × Json)) : List (String × Json) :=
  fs.foldr insertFieldSorted []

mutual

/-- Recursively sort every object's members by key: composing with `rawJson`
gives the canonical text `encoding/json.Marshal` produces for a
`map[string]interface{}` tree. -/
def sortJson : Json → Json
  | .null => .null
  | .bool b => .bool b
  | .num n => .num n
  | .str s => .str s
  | .arr es => .arr (sortJsonList es)
  | .obj fs => .obj (sortFields (sortJsonFields fs))

/-- Sort within each member's value, keeping document order (sorted after). -/
def sortJsonFields : List (String × Json) → List (String × Json)
  | [] => []
  | (k, v) :: rest => (k, sortJson v) :: sortJsonFields rest

/-- Sort within each array element. -/
def sortJsonList : List Json → List Json
  | [] => []
  | e :: rest => sortJson e :: sortJsonList rest

end

/-- The model of `encoding/json.Marshal` output text used by the
comparator's fallback (map keys sorted at every level). -/
def goMarshal (j : Json) : String :=
  rawJson (sortJson j)

mutual

/-- `StateComparison.ValuesEqual` (json_utils state comparison): nil checks
first, then the secret-content sentinel on the current side, then same-type
comparisons (objects as desired-subset, arrays element-wise), and a
normalized-marshal comparison as the fallback for mismatched types. -/
def valuesEqual (desired current : Json) : Bool :=
  match desired, current with
  | .null, .null => true
  | .null, c => isEffectivelyNull c
  | d, .null => isEffectivelyNull d
  | d, c =>
    if c matches .str _ then
      match c with
      | .str s =>
        if s = secretSentinel then true else
        match d with
        | .str sd => sd = s
        | _ => goMarshal (normalizeValue d) = goMarshal (normalizeValue c)
      | _ => false
    else
      match d, c with
      | .bool a, .bool b => a = b
      | .num a, .num b => a = b
      | .obj a, .obj b => mapsEqual a b
      | .arr a, .arr b => slicesEqual a b
      | d, c => goMarshal (normalizeValue d) = goMarshal (normalizeValue c)

/-- `mapsEqual`: every desired member must exist in current and compare
equal; extra current members are ignored. -/
def mapsEqual (desired current : List (String × Json)) : Bool :=
  match desired with
  | [] => true
  | (k, v) :: rest =>
    match lookupField current k with
    | none => false
    | some c => valuesEqual v c && mapsEqual rest current

/-- `slicesEqual`: same length, element-wise equal. -/
def slicesEqual (desired current : List Json) : Bool :=
  match desired, current with
  | [], [] => true
  | [], _ :: _ => false
  | _ :: _, [] => false
  | d :: ds, c :: cs => valuesEqual d c && slicesEqual ds cs

end

/-- The fixed exclusion list of `findChangedFields`
(resource_graphql_mutation.go:1490). -/
def excludedFields (k : String) : Bool :=
  k = "type"

/-- The member loop of `findChangedFields`
(resource_graphql_mutation.go:1508-1537). -/
def findChangedFieldsLoop (current : List (String × Json)) :
    List (String × Json) → List (String × Json)
  | [] => []
  | (k, v) :: rest =>
    if excludedFields k then findChangedFieldsLoop current rest
    else match lookupField current k with
      | none => (k, v) :: findChangedFieldsLoop current rest
      | some c =>
        if valuesEqual v c then findChangedFieldsLoop current rest
        else (k, v) :: findChangedFieldsLoop current rest

/-- The patch unwrap of `findChangedFields`
(resource_graphql_mutation.go:1498-1505): an object-valued `patch` member of
the desired map replaces the desired map for comparison. -/
def patchFields (desired : List (String × Json)) : List (String × Json) :=
  match lookupField desired "patch" with
  | some (.obj p) => p
  | _ => desired

/-- `findChangedFields` (resource_graphql_mutation.go:1486). `current` may
be empty, modelling a nil remote-state map. -/
def findChangedFields (desired current : List (String × Json)) : List (String × Json) :=
  findChangedFieldsLoop current (patchFields desired)

/-- The slice of `GraphqlMutationResourceModel` the read and delete hooks
touch. `none` on an optional field models a null (or unknown) Terraform
value. -/
structure ResourceModel where
  id : Option String
  computedValues : Option (List (String × String))
  computedReadOperationVariables : Option (List (String × String))
  computedUpdateOperationVariables : Option String
  computedCreateOperationVariables : Option String
  computedDeleteOperationVariables : Option (List (String × String))
  queryResponse : Option String
  existingHash : Option String
  currentRemoteState : Option String
  computeMutationKeys : Option (List (String × String))
  readComputeKeys : Option (List (String × String))
  computeFromRead : Bool

/-- `markResourceAsDeleted` (resource_graphql_mutation.go:1577): the one
fixed absent configuration. -/
def markResourceAsDeleted (m : ResourceModel) : ResourceModel :=
  { m with
    id := none
    computedValues := some []
    computedReadOperationVariables := some []
    computedUpdateOperationVariables := some ""
    computedCreateOperationVariables := some ""
    computedDeleteOperationVariables := some []
    queryResponse := some ""
    existingHash := some ""
    currentRemoteState := some "" }

/-- The transport-error deletion indicators of readResource
(resource_graphql_mutation.go:1044-1052), applied to a lowercased detail. -/
def transportDeletionIndicator (msg : String) : Bool :=
  strContains msg "not found" ||
  strContains msg "cannot return null for non-nullable field" ||
  strContains msg "deleted" ||
  strContains msg "does not exist" ||
  strContains msg "was deleted" ||
  strContains msg "deployment not found" ||
  strContains msg "connector was deleted" ||
  strContains msg "404" ||
  strContains msg "resource not found"

/-- The GraphQL-error deletion indicators of readResource
(resource_graphql_mutation.go:1071-1079), applied to a lowercased message. -/
def gqlDeletionIndicator (msg : String) : Bool :=
  strContains msg "deleted" ||
  strContains msg "not found" ||
  strContains msg "does not exist" ||
  strContains msg "was deleted" ||
  strContains msg "deployment not found" ||
  strContains msg "connector was deleted" ||
  strContains msg "resource not found" ||
  strContains msg "cannot return null" ||
  strContains msg "null for non-nullable"

/-- The extraction-error deletion indicators of readResource
(resource_graphql_mutation.go:1187-1190), applied to a lowercased message. -/
def extractionDeletionIndicator (msg : String) : Bool :=
  strContains msg "does not exist" ||
  strContains msg "not found" ||
  strContains msg "path" ||
  strContains msg "deleted"

/-- The Data-nil-or-empty check of readResource
(resource_graphql_mutation.go:1127). -/
def dataNilOrEmpty : Option (List (String × Json)) → Bool
  | none => true
  | some [] => true
  | some (_ :: _) => false

/-- A value counting as valid data in readResource's nested-data scan
(resource_graphql_mutation.go:1098-1117): not nil, not an empty array, not
an empty object. -/
def isValidDataValue : Json → Bool
  | .null => false
  | .arr [] => false
  | .obj [] => false
  | _ => true

/-- The nested-data deletion check of readResource
(resource_graphql_mutation.go:1096-1124): if the response data has a `data`
object member none of whose values is valid, the resource counts as
deleted. -/
def nestedDataDeleted : Option (List (String × Json)) → Bool
  | none => false
  | some fields =>
    match lookupField fields "data" with
    | some (.obj dataMap) => !(dataMap.any (fun kv => isValidDataValue kv.2))
    | _ => false

/-- First value for a key in a string map. -/
def lookupStr : List (String × String) → String → Option String
  | [], _ => none
  | (k, v) :: rest, key => if k = key then some v else lookupStr rest key

/-- Whether a key already exists in an accumulated key map. -/
def listHasKey (acc : List (String × String)) (k : String) : Bool :=
  acc.any (fun kv => kv.1 = k)

mutual

/-- `FlattenRecursive` (json_utils.go:223): flatten a JSON tree into
leaf-key to dot-path bindings, first binding per leaf key wins. -/
def flattenRecursive (pre : String) (j : Json) (acc : List (String × String)) :
    List (String × String) :=
  match j with
  | .obj fs => flattenFields pre fs acc
  | .arr es => flattenElems pre 0 es acc
  | _ =>
    let leafKey := (parsePath pre).getLastD ""
    if listHasKey acc leafKey then acc else acc ++ [(leafKey, pre)]

/-- Flatten an object's members. -/
def flattenFields (pre : String) (fs : List (String × Json)) (acc : List (String × String)) :
    List (String × String) :=
  match fs with
  | [] => acc
  | (k, v) :: rest =>
    let newPrefix := if pre = "" then k else pre ++ "." ++ k
    flattenFields pre rest (flattenRecursive newPrefix v acc)

/-- Flatten an array's elements with numeric path segments. -/
def flattenElems (pre : String) (i : Nat) (es : List Json) (acc : List (String × String)) :
    List (String × String) :=
  match es with
  | [] => acc
  | e :: rest =>
    flattenElems pre (i + 1) rest (flattenRecursive (pre ++ "." ++ natToString i) e acc)

end

/-- `GenerateKeysFromResponse` (json_utils.go:206): flatten the `data`
object of the response into auto-generated compute keys. -/
def generateKeysFromResponse (respBody : Json) : Except String (List (String × String)) :=
  match respBody with
  | .obj robj =>
    match lookupField robj "data" with
    | some (.obj dataFields) => .ok (flattenRecursive "" (.obj dataFields) [])
    | _ => .error "response JSON does not contain a \x27data\x27 object"
  | .null => .error "response JSON does not contain a \x27data\x27 object"
  | _ => .error "cannot unmarshal response JSON into a map"

/-- The compute-key selection of readResource
(resource_graphql_mutation.go:1147-1181): `read_compute_keys` wins, else
auto-generated keys when `compute_from_read` is set (kept only when
generation succeeds and is non-empty), else `compute_mutation_keys`. -/
def readKeysToUse (m : ResourceModel) (respBody : Json) : List (String × Json) :=
  let base : List (String × Json) :=
    match m.computeMutationKeys with
    | some l => l.map (fun kv => (kv.1, Json.str kv.2))
    | none => []
  match m.readComputeKeys with
  | some l => l.map (fun kv => (kv.1, Json.str kv.2))
  | none =>
    if m.computeFromRead then
      match generateKeysFromResponse respBody with
      | .ok auto => if auto ≠ [] then auto.map (fun kv => (kv.1, Json.str kv.2)) else base
      | .error _ => base
    else base

/-- Go `fmt` `%v` rendering of the `[]GqlError` slice in the read error. -/
def goGqlErrorsFmt (msgs : List String) : String :=
  "[" ++ String.intercalate " " (msgs.map (fun s => "\x7b" ++ s ++ "\x7d")) ++ "]"

/-- The outcome of the post-request part of `readResource`, with the
deleted-and-successful return sites distinguished from the plain successful
return (both return nil diagnostics in Go). -/
inductive ReadResult where
  | success (m : ResourceModel)
  | deletedSuccess (m : ResourceModel)
  | failure (m : ResourceModel) (ds : List Diag)

/-- The post-request portion of `readResource`
(resource_graphql_mutation.go:1039-1270), from the return of
`queryExecuteFramework` onward: `execDiags`/`qresp`/`respBody` are that
call's outcome (`respBody` the parsed response bytes, serialized back with
`rawJson` where the code uses the raw bytes). The variable-merging prologue
(lines 975-1037) only shapes the request and the already-set
`ComputedReadOperationVariables`, both part of the input state here. -/
def readResourceAfterExec (m : ResourceModel) (execDiags : List Diag)
    (qresp : GqlResp) (respBody : Json) : ReadResult :=
  if hasError execDiags then
    if execDiags.any (fun d => transportDeletionIndicator (toLowerStr d.detail)) then
      .deletedSuccess (markResourceAsDeleted m)
    else .failure m execDiags
  else if qresp.errors ≠ [] then
    if qresp.errors.any (fun e => gqlDeletionIndicator (toLowerStr e)) then
      .deletedSuccess (markResourceAsDeleted m)
    else
      .failure m [⟨true, "GraphQL Read Error",
        "GraphQL server returned errors: " ++ goGqlErrorsFmt qresp.errors⟩]
  else if nestedDataDeleted qresp.data? then
    .deletedSuccess (markResourceAsDeleted m)
  else if dataNilOrEmpty qresp.data? then
    .deletedSuccess (markResourceAsDeleted m)
  else
    let m1 := { m with queryResponse := some (rawJson respBody) }
    match computeMutationVariableKeys (readKeysToUse m1 respBody) respBody with
    | .error e =>
      if extractionDeletionIndicator (toLowerStr e.message) then
        .deletedSuccess (markResourceAsDeleted m1)
      else
        .failure m1 [⟨true, "Computation Error",
          "Unable to compute keys from read response: " ++ e.message⟩]
    | .ok mvks =>
      let m2 := { m1 with computedValues := some mvks }
      if mvks = [] then .deletedSuccess (markResourceAsDeleted m2)
      else if mvks.all (fun kv => kv.2 = "") then .deletedSuccess (markResourceAsDeleted m2)
      else
        let hashStr := intToString (hashBytes (stringBytes (rawJson respBody)))
        let idVal := match lookupStr mvks "id" with
          | some s => s
          | none => hashStr
        .success { m2 with
          id := some idVal
          existingHash := some hashStr
          computedCreateOperationVariables := some ""
          computedUpdateOperationVariables := some ""
          computedDeleteOperationVariables := some [] }

/-- The id found inside caller-supplied delete variables
(resource_graphql_mutation.go:894-902): `input.id` when it is a non-empty
string, else the empty marker. -/
def idFromDeleteVars (deleteVars : List (String × Json)) : String :=
  match lookupField deleteVars "input" with
  | some (.obj im) =>
    match lookupField im "id" with
    | some (.str s) => s
    | _ => ""
  | _ => ""

/-- Go map assignment on an association list: replace the first binding or
append. -/
def setField (fs : List (String × Json)) (key : String) (v : Json) : List (String × Json) :=
  match fs with
  | [] => [(key, v)]
  | (k, v') :: rest => if k = key then (key, v) :: rest else (k, v') :: setField rest key v

/-- The id injection of executeDeleteHook
(resource_graphql_mutation.go:936-945): ensure an `input` object exists and
set its `id`. -/
def injectDeleteId (deleteVars : List (String × Json)) (id : String) : List (String × Json) :=
  let vars1 := if (lookupField deleteVars "input").isSome then deleteVars
    else deleteVars ++ [("input", .obj [])]
  match lookupField vars1 "input" with
  | some (.obj im) => setField vars1 "input" (.obj (setField im "id" (.str id)))
  | _ => setField vars1 "input" (.obj [("id", .str id)])

/-- How the identity-resolution phase of executeDeleteHook ends. -/
inductive DeleteResolution where
  | warnAbort
  | fatalMissingId
  | resolved (id : String) (vars : List (String × Json))

/-- The identity resolution of `executeDeleteHook`
(resource_graphql_mutation.go:894-945): `input.id` of the delete variables;
when that is empty, a null/unknown ComputedValues aborts with a warning,
else its `id` entry; when still empty, the stored resource id; an id still
empty is the fatal missing-id error; the resolved id is injected into the
delete variables. -/
def resolveDeleteId (deleteVars : List (String × Json))
    (cv : Option (List (String × String))) (storedId : Option String) : DeleteResolution :=
  let id0 := idFromDeleteVars deleteVars
  if id0 ≠ "" then .resolved id0 (injectDeleteId deleteVars id0)
  else
    match cv with
    | none => .warnAbort
    | some cvl =>
      let id1 := match lookupStr cvl "id" with
        | some s => s
        | none => ""
      let id2 := if id1 = "" then
          match storedId with
          | some s => s
          | none => ""
        else id1
      if id2 = "" then .fatalMissingId
      else .resolved id2 (injectDeleteId deleteVars id2)

/-- How `executeDeleteHook` as a whole ends. -/
inductive DeleteHookResult where
  | warnAbort
  | fatalMissingId
  | execError (ds : List Diag)
  | gqlError (msgs : List String)
  | done (executedVars : List (String × Json)) (m : ResourceModel)

/-- `executeDeleteHook` (resource_graphql_mutation.go:875-973) after the
delete-variables JSON has been parsed into `deleteVars`: resolve the id,
execute the delete mutation (its outcome abstracted as `execOutcome`), fail
on transport or GraphQL errors, else set the computed operation-variable
fields. -/
def executeDeleteHook (m : ResourceModel) (deleteVars : List (String × Json))
    (execOutcome : List Diag × GqlResp) : DeleteHookResult :=
  match resolveDeleteId deleteVars m.computedValues m.id with
  | .warnAbort => .warnAbort
  | .fatalMissingId => .fatalMissingId
  | .resolved _ vars =>
    if hasError execOutcome.1 then .execError execOutcome.1
    else if execOutcome.2.errors ≠ [] then .gqlError execOutcome.2.errors
    else .done vars { m with
      computedCreateOperationVariables := some ""
      computedUpdateOperationVariables := some ""
      computedDeleteOperationVariables := some [("variables", goMarshal (.obj vars))] }

/-- A response body from the keys test suite, used as a concrete input. -/
def c1Body : Json :=
  .obj [("data", .obj [("todos",
    .arr [.obj [("id", .str "computed_id")], .obj [("id", .str "second_id")]])])]

/-- The diagnostic of the C4 counterexample: one message matching both the
rate-limit and the business-logic substring sets. -/
def c4Diag : Diag := ⟨true, "HTTP Error", "HTTP 429: conflict"⟩

/-- A one-item paginated page reporting the given `hasNextPage` and
`endCursor`. -/
def pageResp (hnp : Bool) (ec : String) : GqlResp :=
  ⟨some [("items", .obj [("edges", .arr []),
    ("pageInfo", .obj [("hasNextPage", .bool hnp), ("endCursor", .str ec)])])], []⟩

/-- A fully-populated resource state, used as a concrete input to the read
and delete theorems. -/
def sampleModel : ResourceModel :=
  { id := some "old-id"
    computedValues := some [("id", "old-id")]
    computedReadOperationVariables := some [("id", "old-id")]
    computedUpdateOperationVariables := some "u"
    computedCreateOperationVariables := some "c"
    computedDeleteOperationVariables := some [("variables", "v")]
    queryResponse := some "resp"
    existingHash := some "123"
    currentRemoteState := some "s"
    computeMutationKeys := some [("id", "x.id")]
    readComputeKeys := none
    computeFromRead := false }

/-! ## Theorems -/

/-- Keys absent from a field list stay absent. -/
theorem lookupField_eq_none_of_not_mem (k : String) :
    ∀ (fs : List (String × Json)), k ∉ fs.map Prod.fst → lookupField fs k = none := by
  intro fs
  induction fs with
  | nil => intro _; rfl
  | cons hd rest ih =>
    intro h
    simp only [List.map_cons, List.mem_cons] at h
    push_neg at h
    simp only [lookupField, if_neg (by simpa using (Ne.symm h.1)), ih h.2]

/-- The diff loop emits no key that is absent from its input. -/
theorem findChangedFieldsLoop_none (current : List (String × Json)) :
    ∀ (df : List (String × Json)) (k : String), lookupField df k = none →
    lookupField (findChangedFieldsLoop current df) k = none := by
  intro df
  induction df with
  | nil => intro k _; rfl
  | cons hd rest ih =>
    intro k h
    obtain ⟨k₀, v₀⟩ := hd
    simp only [lookupField] at h
    by_cases hk : k₀ = k
    · simp [hk] at h
    · simp only [if_neg hk] at h
      simp only [findChangedFieldsLoop]
      split
      · exact ih k h
      · split
        · simp only [lookupField, if_neg hk]
          exact ih k h
        · split
          · exact ih k h
          · simp only [lookupField, if_neg hk]
            exact ih k h

/-- On a successful run every input key was resolved and coerced. -/
theorem cmvk_ok_resolves (resp : Json) :
    ∀ (keyMaps : List (String × Json)) (m : List (String × String)),
    computeMutationVariableKeys keyMaps resp = .ok m →
    ∀ kv ∈ keyMaps, ∃ p j, kv.2 = Json.str p ∧ resolveMutationKey resp p = some j ∧
      (kv.1, resultString j) ∈ m := by
  intro keyMaps
  induction keyMaps with
  | nil =>
    intro m _ kv hkv
    exact absurd hkv (List.not_mem_nil kv)
  | cons hd rest ih =>
    intro m h kv hkv
    obtain ⟨k, v⟩ := hd
    cases v with
    | str p =>
      simp only [computeMutationVariableKeys] at h
      cases hr : resolveMutationKey resp p with
      | none => rw [hr] at h; exact absurd h (by simp)
      | some r =>
        rw [hr] at h
        cases hrest : computeMutationVariableKeys rest resp with
        | error e => rw [hrest] at h; exact absurd h (by simp)
        | ok m' =>
          rw [hrest] at h
          simp only [Except.ok.injEq] at h
          rcases List.mem_cons.mp hkv with hhead | htail
          · subst hhead
            exact ⟨p, r, rfl, hr, by rw [← h]; exact List.mem_cons_self _ _⟩
          · obtain ⟨p', j', h1, h2, h3⟩ := ih m' hrest kv htail
            exact ⟨p', j', h1, h2, by rw [← h]; exact List.mem_cons_of_mem _ h3⟩
    | null => simp [computeMutationVariableKeys] at h
    | bool b => simp [computeMutationVariableKeys] at h
    | num n => simp [computeMutationVariableKeys] at h
    | arr es => simp [computeMutationVariableKeys] at h
    | obj fs => simp [computeMutationVariableKeys] at h

/-- When every key's path is a string and some key's path resolves nowhere,
the call returns the diagnostic path-not-found error of a failing key. -/
theorem cmvk_error_of_missing (resp : Json) :
    ∀ (keyMaps : List (String × Json)),
    (∀ kv ∈ keyMaps, ∃ p, kv.2 = Json.str p) →
    (∃ kv ∈ keyMaps, ∃ p, kv.2 = Json.str p ∧ resolveMutationKey resp p = none) →
    ∃ p, (∃ kv ∈ keyMaps, kv.2 = Json.str p ∧ resolveMutationKey resp p = none) ∧
      computeMutationVariableKeys keyMaps resp =
        .error (.pathNotFound p (getTopLevelKeys resp)) := by
  intro keyMaps
  induction keyMaps with
  | nil =>
    intro _ hfail
    obtain ⟨kv, hkv, _⟩ := hfail
    exact absurd hkv (List.not_mem_nil kv)
  | cons hd rest ih =>
    intro hstr hfail
    obtain ⟨k, v⟩ := hd
    obtain ⟨p₀, hp₀⟩ := hstr (k, v) (List.mem_cons_self _ _)
    simp only at hp₀
    subst hp₀
    cases hr : resolveMutationKey resp p₀ with
    | none =>
      refine ⟨p₀, ⟨(k, .str p₀), List.mem_cons_self _ _, rfl, hr⟩, ?_⟩
      simp [computeMutationVariableKeys, hr]
    | some r =>
      have hfail' : ∃ kv ∈ rest, ∃ p, kv.2 = Json.str p ∧ resolveMutationKey resp p = none := by
        obtain ⟨kv, hkv, p', hp', hres⟩ := hfail
        rcases List.mem_cons.mp hkv with hhead | htail
        · subst hhead
          simp only [Json.str.injEq] at hp'
          subst hp'
          rw [hr] at hres
          exact absurd hres (by simp)
        · exact ⟨kv, htail, p', hp', hres⟩
      obtain ⟨p, hw, heq⟩ := ih (fun kv hkv => hstr kv (List.mem_cons_of_mem _ hkv)) hfail'
      refine ⟨p, ?_, ?_⟩
      · obtain ⟨kv, hkv, h1, h2⟩ := hw
        exact ⟨kv, List.mem_cons_of_mem _ hkv, h1, h2⟩
      · simp [computeMutationVariableKeys, hr, heq]

/-- C1: for every key-to-path map and response document, each `(key, path)`
pair is resolved by trying, in the fixed order with the first existing
location winning, `data.<path>`, then `data.paginatedData.0.<path>`, then
`<path>`, then `paginatedData.0.<path>`; a successful call resolved every
key this way; if any single key resolves at none of the four locations the
whole call returns an error carrying no partial result, whose message
enumerates the exact full paths tried and the top-level keys actually
present in the response. -/
theorem claim_C1 :
    (∀ (resp : Json) (path : String) (j : Json),
      gjsonGet resp ("data." ++ path) = some j →
      resolveMutationKey resp path = some j) ∧
    (∀ (resp : Json) (path : String) (j : Json),
      gjsonGet resp ("data." ++ path) = none →
      gjsonGet resp ("data.paginatedData.0." ++ path) = some j →
      resolveMutationKey resp path = some j) ∧
    (∀ (resp : Json) (path : String) (j : Json),
      gjsonGet resp ("data." ++ path) = none →
      gjsonGet resp ("data.paginatedData.0." ++ path) = none →
      gjsonGet resp path = some j →
      resolveMutationKey resp path = some j) ∧
    (∀ (resp : Json) (path : String),
      gjsonGet resp ("data." ++ path) = none →
      gjsonGet resp ("data.paginatedData.0." ++ path) = none →
      gjsonGet resp path = none →
      resolveMutationKey resp path = gjsonGet resp ("paginatedData.0." ++ path)) ∧
    (∀ (keyMaps : List (String × Json)) (resp : Json) (m : List (String × String)),
      computeMutationVariableKeys keyMaps resp = .ok m →
      ∀ kv ∈ keyMaps, ∃ p j, kv.2 = Json.str p ∧ resolveMutationKey resp p = some j ∧
        (kv.1, resultString j) ∈ m) ∧
    (∀ (keyMaps : List (String × Json)) (resp : Json),
      (∀ kv ∈ keyMaps, ∃ p, kv.2 = Json.str p) →
      (∃ kv ∈ keyMaps, ∃ p, kv.2 = Json.str p ∧ resolveMutationKey resp p = none) →
      ∃ p, (∃ kv ∈ keyMaps, kv.2 = Json.str p ∧ resolveMutationKey resp p = none) ∧
        computeMutationVariableKeys keyMaps resp =
          .error (.pathNotFound p (getTopLevelKeys resp))) ∧
    (∀ (p : String) (keys : List String),
      (KeysError.pathNotFound p keys).message =
        "the path \x27" ++ p ++ "\x27 does not exist in the response (tried: \x27" ++
        ("data." ++ p) ++ "\x27, \x27" ++ ("data.paginatedData.0." ++ p) ++ "\x27, \x27" ++
        p ++ "\x27, \x27" ++ ("paginatedData.0." ++ p) ++
        "\x27). Available top-level keys: " ++ goStringSlice keys) := by
  refine ⟨?_, ?_, ?_, ?_, ?_, ?_, ?_⟩
  · intro resp path j h
    simp [resolveMutationKey, h]
  · intro resp path j h1 h2
    simp [resolveMutationKey, h1, h2]
  · intro resp path j h1 h2 h3
    simp [resolveMutationKey, h1, h2, h3]
  · intro resp path h1 h2 h3
    simp [resolveMutationKey, h1, h2, h3]
  · exact fun keyMaps resp m h => cmvk_ok_resolves resp keyMaps m h
  · exact fun keyMaps resp h1 h2 => cmvk_error_of_missing resp keyMaps h1 h2
  · intro p keys
    simp only [KeysError.message]
    rw [(by decide :
      ("\x27 does not exist in the response (tried: \x27data." : String) =
        "\x27 does not exist in the response (tried: \x27" ++ "data.")]
    rw [(by decide :
      ("\x27, \x27data.paginatedData.0." : String) = "\x27, \x27" ++ "data.paginatedData.0.")]
    rw [(by decide :
      ("\x27, \x27paginatedData.0." : String) = "\x27, \x27" ++ "paginatedData.0.")]
    simp only [String.append_assoc]

/-- Witness for C1 at the test suite's inputs: `todos.1.id` resolves, and
`todos.3.id` fails all four locations, failing the whole call with the
diagnostic error. -/
theorem claim_C1_witness :
    resolveMutationKey c1Body "todos.1.id" = some (.str "second_id") ∧
    (∃ p, (∃ kv ∈ [("id_key", Json.str "todos.3.id")], kv.2 = Json.str p ∧
        resolveMutationKey c1Body p = none) ∧
      computeMutationVariableKeys [("id_key", Json.str "todos.3.id")] c1Body =
        .error (.pathNotFound p (getTopLevelKeys c1Body))) :=
  ⟨claim_C1.1 c1Body "todos.1.id" (.str "second_id") (by rfl),
   claim_C1.2.2.2.2.2.1 [("id_key", Json.str "todos.3.id")] c1Body
     (by
       intro kv hkv
       simp only [List.mem_singleton] at hkv
       subst hkv
       exact ⟨"todos.3.id", rfl⟩)
     ⟨("id_key", Json.str "todos.3.id"), by simp, "todos.3.id", rfl, by rfl⟩⟩

/-- Counterexample to C2: a key whose path resolves to the numeric leaf `1`
does not fail — the call succeeds and coerces the number to `"1"`
(keys.go:56 coerces every resolved value with `Result.String()`; the test
suite pins this for `1`, `3.14159` and `false`). -/
theorem claim_C2_counterexample :
    resolveMutationKey (Json.obj [("data", Json.obj [("id", Json.num 1)])]) "id" =
      some (Json.num 1) ∧
    computeMutationVariableKeys [("id_key", Json.str "id")]
      (Json.obj [("data", Json.obj [("id", Json.num 1)])]) = .ok [("id_key", "1")] :=
  ⟨rfl, rfl⟩

/-- C2 (amended): every resolved leaf is coerced to its `gjson` string form
— strings to themselves, booleans to `true`/`false`, numbers to their
decimal text, null to the empty string, arrays and objects to their raw
JSON — and no resolved leaf type causes the key's extraction to fail: a
call all of whose keys resolve succeeds. -/
theorem claim_C2 :
    (∀ s, resultString (.str s) = s) ∧
    resultString (.bool true) = "true" ∧
    resultString (.bool false) = "false" ∧
    (∀ n, resultString (.num n) = intToString n) ∧
    resultString .null = "" ∧
    (∀ es, resultString (.arr es) = rawJson (.arr es)) ∧
    (∀ fs, resultString (.obj fs) = rawJson (.obj fs)) ∧
    (∀ (keyMaps : List (String × Json)) (resp : Json),
      (∀ kv ∈ keyMaps, ∃ p j, kv.2 = Json.str p ∧ resolveMutationKey resp p = some j) →
      ∃ m, computeMutationVariableKeys keyMaps resp = .ok m) := by
  refine ⟨fun _ => rfl, rfl, rfl, fun _ => rfl, rfl, fun _ => rfl, fun _ => rfl, ?_⟩
  intro keyMaps resp
  induction keyMaps with
  | nil => exact fun _ => ⟨[], rfl⟩
  | cons hd rest ih =>
    intro h
    obtain ⟨p, j, hp, hj⟩ := h hd (List.mem_cons_self _ _)
    obtain ⟨m', hm'⟩ := ih (fun kv hkv => h kv (List.mem_cons_of_mem _ hkv))
    obtain ⟨k, v⟩ := hd
    simp only at hp
    subst hp
    exact ⟨(k, resultString j) :: m', by simp [computeMutationVariableKeys, hj, hm']⟩

/-- Witness for C2 at a numeric leaf: the hypothesis that every key
resolves holds for path `id` against `{"data":{"id":1}}`, and the call
succeeds. -/
theorem claim_C2_witness :
    ∃ m, computeMutationVariableKeys [("id_key", Json.str "id")]
      (Json.obj [("data", Json.obj [("id", Json.num 1)])]) = .ok m :=
  claim_C2.2.2.2.2.2.2.2 [("id_key", Json.str "id")]
    (Json.obj [("data", Json.obj [("id", Json.num 1)])])
    (by
      intro kv hkv
      simp only [List.mem_singleton] at hkv
      subst hkv
      exact ⟨"id", Json.num 1, rfl, by rfl⟩)

/-- C9: the identity hash is deterministic, non-negative, equal to the CRC32
checksum of the raw input bytes with the sign bit folded (and, the fold
being the identity on the sign-free cast of a `uint32` into a 64-bit `int`,
equal to the checksum itself), and the fold maps the minimum-integer
degenerate case to zero. -/
theorem claim_C9 :
    (∀ bs₁ bs₂ : List Nat, bs₁ = bs₂ → hashBytes bs₁ = hashBytes bs₂) ∧
    (∀ bs : List Nat, 0 ≤ hashBytes bs) ∧
    (∀ bs : List Nat, hashBytes bs = signFold (Int.ofNat (crc32 bs))) ∧
    (∀ bs : List Nat, hashBytes bs = Int.ofNat (crc32 bs)) ∧
    signFold (-(2 ^ 63)) = 0 := by
  have heq : ∀ bs : List Nat, hashBytes bs = Int.ofNat (crc32 bs) := by
    intro bs
    simp [hashBytes, hashCodeString]
  refine ⟨fun bs₁ bs₂ h => by rw [h], ?_, fun bs => rfl, heq, by decide⟩
  intro bs
  rw [heq bs]
  exact Int.ofNat_nonneg _

/-- Witness for C9's determinism hypothesis at a concrete byte string. -/
theorem claim_C9_witness : hashBytes [104, 101, 108, 108, 111] = hashBytes [104, 101, 108, 108, 111] :=
  claim_C9.1 [104, 101, 108, 108, 111] [104, 101, 108, 108, 111] rfl

/-- The retry loop always returns the outcome of its last attempt, making
between 1 and `fuel` requests, when entered with the loop's invariant
`attempt + fuel = maxRetries + 1`. -/
theorem execRequestLoop_spec (outcomes : Nat → List Diag) :
    ∀ (fuel attempt : Nat), 0 < fuel → attempt + fuel = maxRetries + 1 →
    ∃ c, execRequestLoop outcomes attempt fuel = (c, some (outcomes (attempt + c - 1))) ∧
      1 ≤ c ∧ c ≤ fuel := by
  intro fuel
  induction fuel with
  | zero => intro attempt h; omega
  | succ f ih =>
    intro attempt _ hinv
    by_cases he : hasError (outcomes attempt) = false
    · exact ⟨1, by simp [execRequestLoop, he], by omega, by omega⟩
    · by_cases hrl : isRateLimitError (outcomes attempt) = true ∧ attempt < maxRetries
      · have hf : 0 < f := by
          have := hrl.2
          simp [maxRetries] at this hinv ⊢
          omega
        obtain ⟨c, hc, hc1, hc2⟩ := ih (attempt + 1) hf (by omega)
        refine ⟨c + 1, ?_, by omega, by omega⟩
        simp only [execRequestLoop, he, if_false, hrl, if_true]
        rw [hc]
        have : attempt + 1 + c - 1 = attempt + (c + 1) - 1 := by omega
        simp [this]
      · by_cases hbl : isBusinessLogicError (outcomes attempt) = true
        · exact ⟨1, by simp [execRequestLoop, he, hrl, hbl], by omega, by omega⟩
        · exact ⟨1, by simp [execRequestLoop, he, hrl, hbl], by omega, by omega⟩

/-- C3 (amended): one call to the request executor issues at least 1 and at
most 6 HTTP request attempts in total (one initial attempt plus
`maxRetries = 5` retries), and the outcome it returns — in particular the
last error, when the retry budget is exhausted — is exactly the outcome of
the last attempt it made. -/
theorem claim_C3 (outcomes : Nat → List Diag) :
    ∃ c, executeGraphQLRequestFramework outcomes = (c, some (outcomes (c - 1))) ∧
      1 ≤ c ∧ c ≤ 6 := by
  obtain ⟨c, hc, h1, h2⟩ := execRequestLoop_spec outcomes (maxRetries + 1) 0 (by omega) (by omega)
  exact ⟨c, by simpa [executeGraphQLRequestFramework] using hc, h1, by simpa [maxRetries] using h2⟩

/-- Counterexample to C3: when every attempt is rate-limited, the executor
issues 6 HTTP request attempts — the loop `for attempt := 0; attempt <=
maxRetries` runs `maxRetries + 1 = 6` times — not at most 5 as claimed (it
does surface the last error). -/
theorem claim_C3_counterexample :
    executeGraphQLRequestFramework
      (fun _ => [⟨true, "Rate Limit", "HTTP 429 Too many requests"⟩]) =
      (6, some [⟨true, "Rate Limit", "HTTP 429 Too many requests"⟩]) ∧
    ¬ ((executeGraphQLRequestFramework
      (fun _ => [⟨true, "Rate Limit", "HTTP 429 Too many requests"⟩])).1 ≤ 5) :=
  ⟨rfl, by decide⟩

/-- A business-logic error that is not rate-limit-classified ends the loop
immediately, whatever retry budget remains. -/
theorem execRequestLoop_business (outcomes : Nat → List Diag) :
    ∀ (k fuel attempt : Nat), attempt + fuel = maxRetries + 1 → k < fuel →
    (∀ i, i < k → hasError (outcomes (attempt + i)) = true ∧
      isRateLimitError (outcomes (attempt + i)) = true) →
    hasError (outcomes (attempt + k)) = true →
    isRateLimitError (outcomes (attempt + k)) = false →
    isBusinessLogicError (outcomes (attempt + k)) = true →
    execRequestLoop outcomes attempt fuel = (k + 1, some (outcomes (attempt + k))) := by
  intro k
  induction k with
  | zero =>
    intro fuel attempt hinv hk _ he hrl hbl
    obtain ⟨f, rfl⟩ : ∃ f, fuel = f + 1 := ⟨fuel - 1, by omega⟩
    simp only [Nat.add_zero] at he hrl hbl
    simp [execRequestLoop, he, hrl, hbl]
  | succ k ih =>
    intro fuel attempt hinv hk hpre he hrl hbl
    obtain ⟨f, rfl⟩ : ∃ f, fuel = f + 1 := ⟨fuel - 1, by omega⟩
    have h0 := hpre 0 (by omega)
    simp only [Nat.add_zero] at h0
    have hlt : attempt < maxRetries := by
      simp [maxRetries] at hinv ⊢
      omega
    have hrec := ih f (attempt + 1) (by omega) (by omega)
      (fun i hi => by
        have := hpre (i + 1) (by omega)
        simpa [Nat.add_assoc, Nat.add_comm 1 i] using this)
      (by simpa [Nat.add_assoc, Nat.add_comm 1 k] using he)
      (by simpa [Nat.add_assoc, Nat.add_comm 1 k] using hrl)
      (by simpa [Nat.add_assoc, Nat.add_comm 1 k] using hbl)
    simp only [execRequestLoop, h0.1, h0.2, hlt, and_true, if_true]
    rw [hrec]
    simp only [if_neg (by simp [h0.1] : ¬ hasError (outcomes attempt) = false)]
    have : attempt + 1 + k = attempt + (k + 1) := by omega
    simp [this]

/-- C4 (amended): failures are classified by precedence — rate-limited
first (HTTP 429 / `Rate limit`), then business-logic (the fixed substring
set `Can't enable multiple versions`, `already enabled`, `already exists`,
`conflict`), then other; the substring sets can overlap, and a failure
matching both is treated as rate-limited and retried. A failure matching
the business-logic set that is not rate-limit-classified is never retried:
whatever retry budget remains after `k ≤ 5` rate-limited attempts, the
executor returns it immediately as attempt `k + 1`'s outcome. -/
theorem claim_C4 (outcomes : Nat → List Diag) (k : Nat) (hk : k ≤ maxRetries)
    (hpre : ∀ i, i < k → hasError (outcomes i) = true ∧ isRateLimitError (outcomes i) = true)
    (he : hasError (outcomes k) = true)
    (hrl : isRateLimitError (outcomes k) = false)
    (hbl : isBusinessLogicError (outcomes k) = true) :
    executeGraphQLRequestFramework outcomes = (k + 1, some (outcomes k)) := by
  have := execRequestLoop_business outcomes k (maxRetries + 1) 0 (by omega)
    (by omega) (by simpa using hpre) (by simpa using he) (by simpa using hrl)
    (by simpa using hbl)
  simpa [executeGraphQLRequestFramework] using this

/-- Counterexample to C4: a failure whose message contains `conflict`
matches the business-logic set, yet — because it also matches the
rate-limit set, which the executor checks first — it is retried rather
than returned immediately, and the two classifications are not mutually
exclusive. -/
theorem claim_C4_counterexample :
    isBusinessLogicError [c4Diag] = true ∧
    isRateLimitError [c4Diag] = true ∧
    executeGraphQLRequestFramework (fun n => if n = 0 then [c4Diag] else []) = (2, some []) :=
  ⟨rfl, rfl, rfl⟩

/-- Witness for C4 at `k = 1`: one rate-limited attempt followed by a pure
business-logic failure, returned as the second attempt's outcome. -/
theorem claim_C4_witness :
    executeGraphQLRequestFramework
      (fun n => if n = 0 then [⟨true, "Rate Limit", "HTTP 429 Too many requests"⟩]
        else [⟨true, "Error", "already exists"⟩]) =
      (2, some [⟨true, "Error", "already exists"⟩]) := by
  have := claim_C4
    (fun n => if n = 0 then [⟨true, "Rate Limit", "HTTP 429 Too many requests"⟩]
      else [⟨true, "Error", "already exists"⟩])
    1 (by decide)
    (by
      intro i hi
      obtain rfl : i = 0 := by omega
      exact ⟨rfl, rfl⟩)
    rfl rfl rfl
  simpa using this

/-- If the pagination loop stops within `n` more responses, it terminates
using at most `i + n + 1` requests in total. -/
theorem paginationLoop_stops (responses : Nat → PageOutcome) :
    ∀ (fuel i n : Nat), n < fuel → pageStops responses (i + n) = true →
    ∃ pages k b, paginationLoop responses i fuel = some (pages, k, b) ∧ k ≤ i + n + 1 := by
  intro fuel
  induction fuel with
  | zero => intro i n h; omega
  | succ f ih =>
    intro i n hn hstop
    cases hr : responses i with
    | failed ds => exact ⟨[], i + 1, false, by simp [paginationLoop, hr], by omega⟩
    | ok resp =>
      by_cases herr : resp.errors = []
      · rcases hx : extractPaginatedData resp.data? with ⟨pd, hnpv, ecv⟩
        cases hnpv with
        | false =>
          cases pd with
          | some d =>
            exact ⟨[d], i + 1, true, by simp [paginationLoop, hr, herr, hx], by omega⟩
          | none =>
            exact ⟨[], i + 1, true, by simp [paginationLoop, hr, herr, hx], by omega⟩
        | true =>
          by_cases hec : ecv = ""
          · subst hec
            cases pd with
            | some d =>
              exact ⟨[d], i + 1, true, by simp [paginationLoop, hr, herr, hx], by omega⟩
            | none =>
              exact ⟨[], i + 1, true, by simp [paginationLoop, hr, herr, hx], by omega⟩
          · cases n with
            | zero =>
              exfalso
              simp [pageStops, hr, herr, hx, hec] at hstop
            | succ n' =>
              obtain ⟨pages, k, b, hrec, hk⟩ := ih (i + 1) n' (by omega)
                (by
                  have : i + 1 + n' = i + (n' + 1) := by omega
                  rw [this]
                  exact hstop)
              cases pd with
              | some d =>
                exact ⟨d :: pages, k, b,
                  by simp [paginationLoop, hr, herr, hx, hec, hrec], by omega⟩
              | none =>
                exact ⟨pages, k, b,
                  by simp [paginationLoop, hr, herr, hx, hec, hrec], by omega⟩
      · exact ⟨[], i + 1, false, by simp [paginationLoop, hr, herr], by omega⟩

/-- C8: a response sequence whose `N`-th page reports `hasNextPage = false`
makes the pagination loop terminate after at most `N + 1` requests; and
whenever a response reports an empty `endCursor`, the loop terminates with
no further request even if that response reports `hasNextPage = true`. -/
theorem claim_C8 :
    (∀ (responses : Nat → PageOutcome) (N : Nat) (r : GqlResp),
      0 < N → responses (N - 1) = .ok r →
      (extractPaginatedData r.data?).2.1 = false →
      ∃ pages k b, paginationLoop responses 0 (N + 1) = some (pages, k, b) ∧ k ≤ N + 1) ∧
    (∀ (responses : Nat → PageOutcome) (i fuel : Nat) (r : GqlResp),
      responses i = .ok r → r.errors = [] →
      (extractPaginatedData r.data?).2.1 = true →
      (extractPaginatedData r.data?).2.2 = "" →
      ∃ pages, paginationLoop responses i (fuel + 1) = some (pages, i + 1, true)) := by
  constructor
  · intro responses N r hN hr hnp
    have hstop : pageStops responses (0 + (N - 1)) = true := by
      have : 0 + (N - 1) = N - 1 := by omega
      rw [this]
      by_cases herr : r.errors = []
      · simp [pageStops, hr, herr, hnp]
      · simp [pageStops, hr, herr]
    obtain ⟨pages, k, b, hloop, hk⟩ :=
      paginationLoop_stops responses (N + 1) 0 (N - 1) (by omega) hstop
    exact ⟨pages, k, b, hloop, by omega⟩
  · intro responses i fuel r hr herr hnp hec
    rcases hx : extractPaginatedData r.data? with ⟨pd, hnpv, ecv⟩
    rw [hx] at hnp hec
    simp only at hnp hec
    subst hnp
    subst hec
    cases pd with
    | some d => exact ⟨[d], by simp [paginationLoop, hr, herr, hx]⟩
    | none => exact ⟨[], by simp [paginationLoop, hr, herr, hx]⟩

/-- Witness for C8: a 2-page sequence whose final page reports
`hasNextPage = false` terminates within 3 requests, and a page with
`hasNextPage = true` but an empty `endCursor` stops the loop at once. -/
theorem claim_C8_witness :
    (∃ pages k b, paginationLoop
        (fun n => if n = 0 then .ok (pageResp true "c1") else .ok (pageResp false "")) 0 3 =
        some (pages, k, b) ∧ k ≤ 3) ∧
    (∃ pages, paginationLoop (fun _ => .ok (pageResp true "")) 0 1 = some (pages, 1, true)) :=
  ⟨claim_C8.1 (fun n => if n = 0 then .ok (pageResp true "c1") else .ok (pageResp false ""))
      2 (pageResp false "") (by omega) rfl rfl,
   claim_C8.2 (fun _ => .ok (pageResp true "")) 0 0 (pageResp true "") rfl rfl rfl rfl⟩

/-- Pointwise characterization of the diff loop: a key is reported exactly
when it is in the (duplicate-free) desired field list, not excluded, and
absent from current or unequal to its current value. -/
theorem findChangedFieldsLoop_lookup (current : List (String × Json)) :
    ∀ (df : List (String × Json)), (df.map Prod.fst).Nodup →
    ∀ k, lookupField (findChangedFieldsLoop current df) k =
      (if excludedFields k then none
       else match lookupField df k with
       | none => none
       | some v =>
         match lookupField current k with
         | none => some v
         | some c => if valuesEqual v c then none else some v) := by
  intro df
  induction df with
  | nil =>
    intro _ k
    simp only [findChangedFieldsLoop, lookupField]
    split <;> rfl
  | cons hd rest ih =>
    intro hnd k
    obtain ⟨k₀, v₀⟩ := hd
    simp only [List.map_cons, List.nodup_cons] at hnd
    obtain ⟨hk₀, hndrest⟩ := hnd
    have hrest₀ : lookupField rest k₀ = none := lookupField_eq_none_of_not_mem k₀ rest hk₀
    by_cases hkk : k = k₀
    · subst hkk
      have hdf : lookupField ((k, v₀) :: rest) k = some v₀ := by simp [lookupField]
      rw [hdf]
      by_cases hex : excludedFields k = true
      · have hL : lookupField (findChangedFieldsLoop current ((k, v₀) :: rest)) k = none := by
          simp only [findChangedFieldsLoop, hex, if_true]
          exact findChangedFieldsLoop_none current rest k hrest₀
        rw [hL, if_pos hex]
      · rw [if_neg hex]
        cases hc : lookupField current k with
        | none =>
          have hL : lookupField (findChangedFieldsLoop current ((k, v₀) :: rest)) k =
              some v₀ := by
            simp only [findChangedFieldsLoop, hex, if_false, hc]
            simp [lookupField]
          rw [hL]
        | some c =>
          by_cases hv : valuesEqual v₀ c = true
          · have hL : lookupField (findChangedFieldsLoop current ((k, v₀) :: rest)) k =
                none := by
              simp only [findChangedFieldsLoop, hex, if_false, hc, hv, if_true]
              exact findChangedFieldsLoop_none current rest k hrest₀
            rw [hL]
            all_goals simp [hc, hv]
          · simp only [Bool.not_eq_true] at hv
            have hL : lookupField (findChangedFieldsLoop current ((k, v₀) :: rest)) k =
                some v₀ := by
              simp only [findChangedFieldsLoop, hex, if_false, hc, hv, Bool.false_eq_true]
              simp [lookupField]
            rw [hL]
            all_goals simp [hc, hv]
    · have hne : k₀ ≠ k := fun h => hkk h.symm
      have hdf : lookupField ((k₀, v₀) :: rest) k = lookupField rest k := by
        simp [lookupField, if_neg hne]
      rw [hdf]
      have hL : lookupField (findChangedFieldsLoop current ((k₀, v₀) :: rest)) k =
          lookupField (findChangedFieldsLoop current rest) k := by
        simp only [findChangedFieldsLoop]
        split
        · rfl
        · split
          · simp [lookupField, if_neg hne]
          · split
            · rfl
            · simp [lookupField, if_neg hne]
      rw [hL]
      exact ih hndrest k

/-- Counterexample to C7: with desired `{"patch":{"a":"1"}}` the diff is
computed from the object under the `patch` key, so the result carries the
key `a` — which is not a key of the desired map — and not the desired
map's own key `patch`. -/
theorem claim_C7_counterexample :
    findChangedFields [("patch", .obj [("a", .str "1")])] [] = [("a", .str "1")] ∧
    lookupField (findChangedFields [("patch", .obj [("a", .str "1")])] []) "patch" = none :=
  ⟨rfl, rfl⟩

/-- C7 (amended): after unwrapping an object-valued `patch` member of the
desired map, diff returns exactly those desired keys not on the fixed
exclusion list (the immutable `type`) whose value is absent from current or
unequal under the comparator; keys present only in current are ignored and
keys missing from the (unwrapped) desired map are never reported. In
particular desired `{"name":"x"}` against remote
`{"name":"x","extra":"y"}` yields the empty diff, and desired
`{"name":"new"}` against remote `{"name":"old"}` yields
`{"name":"new"}`. -/
theorem claim_C7 :
    (∀ (desired current : List (String × Json)),
      ((patchFields desired).map Prod.fst).Nodup →
      ∀ k, lookupField (findChangedFields desired current) k =
        (if excludedFields k then none
         else match lookupField (patchFields desired) k with
         | none => none
         | some v =>
           match lookupField current k with
           | none => some v
           | some c => if valuesEqual v c then none else some v)) ∧
    findChangedFields [("name", .str "x")] [("name", .str "x"), ("extra", .str "y")] = [] ∧
    findChangedFields [("name", .str "new")] [("name", .str "old")] = [("name", .str "new")] := by
  refine ⟨?_, ?_, ?_⟩
  · intro desired current h k
    exact findChangedFieldsLoop_lookup current (patchFields desired) h k
  · simp [findChangedFields, patchFields, lookupField, findChangedFieldsLoop,
      excludedFields, valuesEqual]
  · simp [findChangedFields, patchFields, lookupField, findChangedFieldsLoop,
      excludedFields, valuesEqual, secretSentinel]

/-- Witness for C7 at the first scenario's inputs: the characterization
applied to desired `{"name":"x"}` and current `{"name":"x","extra":"y"}`
at key `extra` (ignored) and at key `name` (equal, hence not reported). -/
theorem claim_C7_witness :
    lookupField (findChangedFields [("name", .str "x")]
      [("name", .str "x"), ("extra", .str "y")]) "extra" =
      (if excludedFields "extra" then none
       else match lookupField (patchFields [("name", .str "x")]) "extra" with
       | none => none
       | some v =>
         match lookupField [("name", Json.str "x"), ("extra", Json.str "y")] "extra" with
         | none => some v
         | some c => if valuesEqual v c then none else some v) :=
  claim_C7.1 [("name", .str "x")] [("name", .str "x"), ("extra", .str "y")]
    (by simp [patchFields, lookupField]) "extra"

/-- C10: every path on which readResource decides the resource no longer
exists remotely returns success with the one fixed absent configuration:
null Id, empty ComputedValues / ComputedReadOperationVariables /
ComputedDeleteOperationVariables maps, and empty
ComputedUpdateOperationVariables / ComputedCreateOperationVariables /
QueryResponse / ExistingHash / CurrentRemoteState strings. -/
theorem claim_C10 (m : ResourceModel) (execDiags : List Diag) (qresp : GqlResp)
    (respBody : Json) (m' : ResourceModel)
    (h : readResourceAfterExec m execDiags qresp respBody = .deletedSuccess m') :
    m'.id = none ∧
    m'.computedValues = some [] ∧
    m'.computedReadOperationVariables = some [] ∧
    m'.computedUpdateOperationVariables = some "" ∧
    m'.computedCreateOperationVariables = some "" ∧
    m'.computedDeleteOperationVariables = some [] ∧
    m'.queryResponse = some "" ∧
    m'.existingHash = some "" ∧
    m'.currentRemoteState = some "" := by
  simp only [readResourceAfterExec] at h
  repeat' split at h
  all_goals simp at h
  all_goals subst h
  all_goals simp [markResourceAsDeleted]

/-- Witness for C10: a read whose GraphQL error is `Connector was deleted`
ends in the deleted state, and that state is the fixed absent
configuration. -/
theorem claim_C10_witness :
    (markResourceAsDeleted sampleModel).id = none ∧
    (markResourceAsDeleted sampleModel).computedValues = some [] ∧
    (markResourceAsDeleted sampleModel).computedReadOperationVariables = some [] ∧
    (markResourceAsDeleted sampleModel).computedUpdateOperationVariables = some "" ∧
    (markResourceAsDeleted sampleModel).computedCreateOperationVariables = some "" ∧
    (markResourceAsDeleted sampleModel).computedDeleteOperationVariables = some [] ∧
    (markResourceAsDeleted sampleModel).queryResponse = some "" ∧
    (markResourceAsDeleted sampleModel).existingHash = some "" ∧
    (markResourceAsDeleted sampleModel).currentRemoteState = some "" :=
  claim_C10 sampleModel [] ⟨some [("x", .null)], ["Connector was deleted"]⟩ .null
    (markResourceAsDeleted sampleModel) (by rfl)

/-- Counterexample to C5: a response whose primary data object is empty but
which carries a GraphQL error matching no deletion indicator makes the read
fail — the error check runs first, so the claim's `primary data object is
null/empty implies success` disjunct does not hold. -/
theorem claim_C5_counterexample :
    dataNilOrEmpty (some ([] : List (String × Json))) = true ∧
    readResourceAfterExec sampleModel [] ⟨some [], ["boom"]⟩ .null =
      .failure sampleModel
        [⟨true, "GraphQL Read Error", "GraphQL server returned errors: [\x7bboom\x7d]"⟩] :=
  ⟨rfl, rfl⟩

/-- C5 (amended): the deletion checks of Read run in sequence. A transport
error whose detail matches a deletion indicator, a GraphQL error (any of
them) matching a deletion indicator, a null/empty primary data object when
there are no errors, a nested all-null/empty `data` object when there are
no errors, and an extraction result with zero or all-empty computed values
each clear the identity and ComputedValues and return success; in
particular a GraphQL error `Connector was deleted` during Read clears
identity and returns success. -/
theorem claim_C5 :
    (∀ (m : ResourceModel) (ds : List Diag) (qresp : GqlResp) (body : Json),
      hasError ds = true →
      ds.any (fun d => transportDeletionIndicator (toLowerStr d.detail)) = true →
      readResourceAfterExec m ds qresp body = .deletedSuccess (markResourceAsDeleted m)) ∧
    (∀ (m : ResourceModel) (ds : List Diag) (qresp : GqlResp) (body : Json),
      hasError ds = false →
      qresp.errors ≠ [] →
      qresp.errors.any (fun e => gqlDeletionIndicator (toLowerStr e)) = true →
      readResourceAfterExec m ds qresp body = .deletedSuccess (markResourceAsDeleted m)) ∧
    (∀ (m : ResourceModel) (ds : List Diag) (qresp : GqlResp) (body : Json),
      hasError ds = false →
      qresp.errors = [] →
      dataNilOrEmpty qresp.data? = true →
      readResourceAfterExec m ds qresp body = .deletedSuccess (markResourceAsDeleted m)) ∧
    (∀ (m : ResourceModel) (ds : List Diag) (qresp : GqlResp) (body : Json),
      hasError ds = false →
      qresp.errors = [] →
      nestedDataDeleted qresp.data? = true →
      readResourceAfterExec m ds qresp body = .deletedSuccess (markResourceAsDeleted m)) ∧
    (∀ (m : ResourceModel) (ds : List Diag) (qresp : GqlResp) (body : Json)
      (mvks : List (String × String)),
      hasError ds = false →
      qresp.errors = [] →
      nestedDataDeleted qresp.data? = false →
      dataNilOrEmpty qresp.data? = false →
      computeMutationVariableKeys
        (readKeysToUse { m with queryResponse := some (rawJson body) } body) body = .ok mvks →
      (mvks = [] ∨ mvks.all (fun kv => kv.2 = "") = true) →
      readResourceAfterExec m ds qresp body = .deletedSuccess (markResourceAsDeleted m)) ∧
    readResourceAfterExec sampleModel [] ⟨some [("x", .null)], ["Connector was deleted"]⟩ .null =
      .deletedSuccess (markResourceAsDeleted sampleModel) := by
  refine ⟨?_, ?_, ?_, ?_, ?_, by rfl⟩
  · intro m ds qresp body h1 h2
    simp [readResourceAfterExec, h1, h2]
  · intro m ds qresp body h1 h2 h3
    simp [readResourceAfterExec, h1, h2, h3]
  · intro m ds qresp body h1 h2 h3
    by_cases hn : nestedDataDeleted qresp.data? = true
    · simp [readResourceAfterExec, h1, h2, hn]
    · simp only [Bool.not_eq_true] at hn
      simp [readResourceAfterExec, h1, h2, hn, h3]
  · intro m ds qresp body h1 h2 h3
    simp [readResourceAfterExec, h1, h2, h3]
  · intro m ds qresp body mvks h1 h2 h3 h4 h5 h6
    rcases h6 with h6 | h6
    · subst h6
      simp [readResourceAfterExec, h1, h2, h3, h4, h5, markResourceAsDeleted]
    · by_cases hz : mvks = []
      · subst hz
        simp [readResourceAfterExec, h1, h2, h3, h4, h5, markResourceAsDeleted]
      · simp [readResourceAfterExec, h1, h2, h3, h4, h5, hz, h6, markResourceAsDeleted]

/-- Witness for C5 at concrete inputs: a deletion-indicating transport
error, a deletion-indicating GraphQL error, an empty data object, a nested
all-null data object, and an extraction yielding only empty values each end
in the deleted state. -/
theorem claim_C5_witness :
    readResourceAfterExec sampleModel [⟨true, "HTTP Error", "received HTTP 404: gone"⟩]
      ⟨none, []⟩ .null = .deletedSuccess (markResourceAsDeleted sampleModel) ∧
    readResourceAfterExec sampleModel [] ⟨some [("x", .str "v")], ["entity not found"]⟩ .null =
      .deletedSuccess (markResourceAsDeleted sampleModel) ∧
    readResourceAfterExec sampleModel [] ⟨some [], []⟩ .null =
      .deletedSuccess (markResourceAsDeleted sampleModel) ∧
    readResourceAfterExec sampleModel [] ⟨some [("data", .obj [("todo", .null)])], []⟩ .null =
      .deletedSuccess (markResourceAsDeleted sampleModel) ∧
    readResourceAfterExec sampleModel []
      ⟨some [("todo", .str "v")], []⟩
      (.obj [("data", .obj [("x", .obj [("id", .str "")])])]) =
      .deletedSuccess (markResourceAsDeleted sampleModel) :=
  ⟨claim_C5.1 sampleModel [⟨true, "HTTP Error", "received HTTP 404: gone"⟩] ⟨none, []⟩ .null
      rfl rfl,
   claim_C5.2.1 sampleModel [] ⟨some [("x", .str "v")], ["entity not found"]⟩ .null
      rfl (by simp) rfl,
   claim_C5.2.2.1 sampleModel [] ⟨some [], []⟩ .null rfl rfl rfl,
   claim_C5.2.2.2.1 sampleModel [] ⟨some [("data", .obj [("todo", .null)])], []⟩ .null
      rfl rfl rfl,
   claim_C5.2.2.2.2.1 sampleModel [] ⟨some [("todo", .str "v")], []⟩
      (.obj [("data", .obj [("x", .obj [("id", .str "")])])])
      [("id", "")] rfl rfl rfl rfl (by rfl) (Or.inr (by rfl))⟩

/-- A set field is found with its new value. -/
theorem lookupField_setField : ∀ (fs : List (String × Json)) (k : String) (v : Json),
    lookupField (setField fs k v) k = some v := by
  intro fs
  induction fs with
  | nil => intro k v; simp [setField, lookupField]
  | cons hd rest ih =>
    intro k v
    obtain ⟨k₀, v₀⟩ := hd
    by_cases hk : k₀ = k
    · simp [setField, hk, lookupField]
    · simp [setField, hk, lookupField, ih]

/-- Lookup passes over a prefix in which the key is absent. -/
theorem lookupField_append_of_none :
    ∀ (fs gs : List (String × Json)) (k : String), lookupField fs k = none →
    lookupField (fs ++ gs) k = lookupField gs k := by
  intro fs
  induction fs with
  | nil => intro gs k _; rfl
  | cons hd rest ih =>
    intro gs k h
    obtain ⟨k₀, v₀⟩ := hd
    simp only [lookupField] at h
    by_cases hk : k₀ = k
    · simp [hk] at h
    · simp only [List.cons_append, lookupField, if_neg hk]
      exact ih gs k (by simpa [if_neg hk] using h)

/-- Counterexample to C6: with no id in the delete variables and a null
ComputedValues, the hook returns early with only a warning — it neither
falls back to the engine's stored identity (here present) nor raises the
fatal missing-id error. -/
theorem claim_C6_counterexample :
    resolveDeleteId [] none (some "abc") = .warnAbort ∧
    executeDeleteHook { sampleModel with computedValues := none } []
      ([], ⟨none, []⟩) = .warnAbort :=
  ⟨rfl, rfl⟩

/-- C6 (amended): Delete resolves the id in priority order — a non-empty
`input.id` of the caller-supplied delete variables wins; otherwise a
null/unknown ComputedValues aborts the operation with a warning (the stored
identity is never consulted in that case); otherwise a non-empty
ComputedValues `id` entry; otherwise a non-empty stored identity; if all of
those are empty the operation fails with the fatal missing-id error. The
resolved id is injected into `{input:{id}}` of the delete variables before
execution, and a resolution followed by an error-free execution completes
the hook with those injected variables. -/
theorem claim_C6 :
    (∀ (deleteVars : List (String × Json)) (cv : Option (List (String × String)))
      (storedId : Option String),
      idFromDeleteVars deleteVars ≠ "" →
      resolveDeleteId deleteVars cv storedId =
        .resolved (idFromDeleteVars deleteVars)
          (injectDeleteId deleteVars (idFromDeleteVars deleteVars))) ∧
    (∀ (deleteVars : List (String × Json)) (storedId : Option String),
      idFromDeleteVars deleteVars = "" →
      resolveDeleteId deleteVars none storedId = .warnAbort) ∧
    (∀ (deleteVars : List (String × Json)) (cvl : List (String × String))
      (storedId : Option String) (s : String),
      idFromDeleteVars deleteVars = "" →
      lookupStr cvl "id" = some s → s ≠ "" →
      resolveDeleteId deleteVars (some cvl) storedId =
        .resolved s (injectDeleteId deleteVars s)) ∧
    (∀ (deleteVars : List (String × Json)) (cvl : List (String × String)) (s : String),
      idFromDeleteVars deleteVars = "" →
      (lookupStr cvl "id" = none ∨ lookupStr cvl "id" = some "") →
      s ≠ "" →
      resolveDeleteId deleteVars (some cvl) (some s) =
        .resolved s (injectDeleteId deleteVars s)) ∧
    (∀ (deleteVars : List (String × Json)) (cvl : List (String × String))
      (storedId : Option String),
      idFromDeleteVars deleteVars = "" →
      (lookupStr cvl "id" = none ∨ lookupStr cvl "id" = some "") →
      (storedId = none ∨ storedId = some "") →
      resolveDeleteId deleteVars (some cvl) storedId = .fatalMissingId) ∧
    (∀ (vars : List (String × Json)) (id : String),
      ∃ im, lookupField (injectDeleteId vars id) "input" = some (.obj im) ∧
        lookupField im "id" = some (.str id)) ∧
    (∀ (m : ResourceModel) (deleteVars : List (String × Json))
      (eo : List Diag × GqlResp) (id : String) (vars : List (String × Json)),
      resolveDeleteId deleteVars m.computedValues m.id = .resolved id vars →
      hasError eo.1 = false →
      eo.2.errors = [] →
      executeDeleteHook m deleteVars eo = .done vars { m with
        computedCreateOperationVariables := some ""
        computedUpdateOperationVariables := some ""
        computedDeleteOperationVariables := some [("variables", goMarshal (.obj vars))] }) := by
  refine ⟨?_, ?_, ?_, ?_, ?_, ?_, ?_⟩
  · intro deleteVars cv storedId h
    simp [resolveDeleteId, h]
  · intro deleteVars storedId h
    simp [resolveDeleteId, h]
  · intro deleteVars cvl storedId s h hl hs
    simp [resolveDeleteId, h, hl, hs]
  · intro deleteVars cvl s h hl hs
    rcases hl with hl | hl <;> simp [resolveDeleteId, h, hl, hs]
  · intro deleteVars cvl storedId h hl hst
    rcases hl with hl | hl <;> rcases hst with hst | hst <;>
      simp [resolveDeleteId, h, hl, hst]
  · intro vars id
    cases hin : lookupField vars "input" with
    | some j =>
      cases j with
      | obj im =>
        refine ⟨setField im "id" (.str id), ?_, lookupField_setField im "id" (.str id)⟩
        simp only [injectDeleteId, hin, Option.isSome_some, if_true]
        exact lookupField_setField vars "input" _
      | null =>
        refine ⟨[("id", .str id)], ?_, by simp [lookupField]⟩
        simp only [injectDeleteId, hin, Option.isSome_some, if_true]
        exact lookupField_setField vars "input" _
      | bool b =>
        refine ⟨[("id", .str id)], ?_, by simp [lookupField]⟩
        simp only [injectDeleteId, hin, Option.isSome_some, if_true]
        exact lookupField_setField vars "input" _
      | num n =>
        refine ⟨[("id", .str id)], ?_, by simp [lookupField]⟩
        simp only [injectDeleteId, hin, Option.isSome_some, if_true]
        exact lookupField_setField vars "input" _
      | str s =>
        refine ⟨[("id", .str id)], ?_, by simp [lookupField]⟩
        simp only [injectDeleteId, hin, Option.isSome_some, if_true]
        exact lookupField_setField vars "input" _
      | arr es =>
        refine ⟨[("id", .str id)], ?_, by simp [lookupField]⟩
        simp only [injectDeleteId, hin, Option.isSome_some, if_true]
        exact lookupField_setField vars "input" _
    | none =>
      have hv1 : lookupField (vars ++ [("input", Json.obj [])]) "input" =
          some (Json.obj []) := by
        rw [lookupField_append_of_none vars [("input", Json.obj [])] "input" hin]
        simp [lookupField]
      refine ⟨setField [] "id" (.str id), ?_, lookupField_setField [] "id" (.str id)⟩
      simp only [injectDeleteId, hin, Option.isSome_none, Bool.false_eq_true, if_false, hv1]
      exact lookupField_setField _ "input" _
  · intro m deleteVars eo id vars hres h1 h2
    simp [executeDeleteHook, hres, h1, h2]

/-- Witness for C6 at concrete inputs: a delete-variables id wins; a
ComputedValues id is used next; the stored identity is used third; all
empty is fatal; and the injected variables carry the id. -/
theorem claim_C6_witness :
    resolveDeleteId [("input", .obj [("id", .str "var-id")])] (some [("id", "cv-id")])
      (some "st-id") =
      .resolved "var-id" (injectDeleteId [("input", .obj [("id", .str "var-id")])] "var-id") ∧
    resolveDeleteId [] (some [("id", "cv-id")]) (some "st-id") =
      .resolved "cv-id" (injectDeleteId [] "cv-id") ∧
    resolveDeleteId [] (some [("other", "x")]) (some "st-id") =
      .resolved "st-id" (injectDeleteId [] "st-id") ∧
    resolveDeleteId [] (some [("other", "x")]) none = .fatalMissingId ∧
    (∃ im, lookupField (injectDeleteId [] "cv-id") "input" = some (.obj im) ∧
      lookupField im "id" = some (.str "cv-id")) :=
  ⟨claim_C6.1 [("input", .obj [("id", .str "var-id")])] (some [("id", "cv-id")])
      (some "st-id") (by simp [idFromDeleteVars, lookupField]),
   claim_C6.2.2.1 [] [("id", "cv-id")] (some "st-id") "cv-id" rfl rfl (by simp),
   claim_C6.2.2.2.1 [] [("other", "x")] "st-id" rfl (Or.inl rfl) (by simp),
   claim_C6.2.2.2.2.1 [] [("other", "x")] none rfl (Or.inl rfl) (Or.inl rfl),
   claim_C6.2.2.2.2.2.1 [] "cv-id"⟩

end GraphqlProvider
